import Mathlib

/-! Footprints character: input glue and foot-down procedure.

A shallow embedding of `Source/Footprints/FootprintsCharacter.cpp`.

* Engine calls that the character issues (bindings, jumps, movement input,
  line traces, spawns) are recorded as values, in the order they are issued.
* Pointers that the code tests against null are `Option`s.
* The character code is embedded over an arbitrary scalar type `K`.  The
  arithmetic that the character itself performs on `float` values (the two sums
  in `Trace`) is evaluated in `F32`, a model of 32-bit floats with rounding.
* The engine's rotation routines are not part of the repository; they are
  modelled separately in exact arithmetic.
-/

namespace Footprints

/-! ## Engine value types used by the character -/

/-- Engine `FVector`: three scalar components. -/
structure FVector (K : Type) where
  X : K
  Y : K
  Z : K
deriving DecidableEq, Repr

/-- Engine `FRotator`, constructed as `FRotator(Pitch, Yaw, Roll)` (degrees). -/
structure FRotator (K : Type) where
  Pitch : K
  Yaw : K
  Roll : K
deriving DecidableEq, Repr

/-- Engine `EInputEvent`, the two values the character binds. -/
inductive EInputEvent where
  | IE_Pressed
  | IE_Released
deriving DecidableEq, Repr

/-- Engine `ETouchIndex::Type`: the finger of a touch event. -/
inductive ETouchIndex where
  | Touch1 | Touch2 | Touch3 | Touch4 | Touch5
  | Touch6 | Touch7 | Touch8 | Touch9 | Touch10
deriving DecidableEq, Repr

/-- Engine `EAxis::Type`. -/
inductive EAxis where
  | X | Y | Z
deriving DecidableEq, Repr

/-- Member functions that `SetupPlayerInputComponent` passes as delegates. -/
inductive Handler where
  | ACharacter_Jump
  | ACharacter_StopJumping
  | MoveForward
  | MoveRight
  | APawn_AddControllerYawInput
  | TurnAtRate
  | APawn_AddControllerPitchInput
  | LookUpAtRate
  | TouchStarted
  | TouchStopped
deriving DecidableEq, Repr

/-- One registration made on a `UInputComponent`. -/
inductive Binding where
  | BindAction (ActionName : String) (KeyEvent : EInputEvent) (Func : Handler)
  | BindAxis (AxisName : String) (Func : Handler)
  | BindTouch (KeyEvent : EInputEvent) (Func : Handler)
deriving DecidableEq, Repr

/-- A `UInputComponent`: the registrations made on it so far, oldest first. -/
abbrev UInputComponent := List Binding

/-- Outcome of a failed `check(...)`. -/
inductive Fatal where
  | CheckFailed (expr : String)
deriving DecidableEq, Repr

/-- Calls the character makes on itself or its pawn base from the input handlers. -/
inductive PawnCall (K : Type) where
  | Jump
  | StopJumping
  | GetControlRotation
  | AddMovementInput (WorldDirection : FVector K) (ScaleValue : K)
deriving DecidableEq, Repr

/-! ## Input -/

/-- The registrations of `SetupPlayerInputComponent`, lines 54-70, in source order. -/
def SetupBindings : List Binding :=
  [ Binding.BindAction "Jump" EInputEvent.IE_Pressed Handler.ACharacter_Jump,
    Binding.BindAction "Jump" EInputEvent.IE_Released Handler.ACharacter_StopJumping,
    Binding.BindAxis "MoveForward" Handler.MoveForward,
    Binding.BindAxis "MoveRight" Handler.MoveRight,
    Binding.BindAxis "Turn" Handler.APawn_AddControllerYawInput,
    Binding.BindAxis "TurnRate" Handler.TurnAtRate,
    Binding.BindAxis "LookUp" Handler.APawn_AddControllerPitchInput,
    Binding.BindAxis "LookUpRate" Handler.LookUpAtRate,
    Binding.BindTouch EInputEvent.IE_Pressed Handler.TouchStarted,
    Binding.BindTouch EInputEvent.IE_Released Handler.TouchStopped ]

/-- `AFootprintsCharacter::SetupPlayerInputComponent`: `check(InputComponent)` and then
the ten registrations appended to the component. -/
def SetupPlayerInputComponent (InputComponent : Option UInputComponent) :
    Except Fatal UInputComponent :=
  match InputComponent with
  | none => Except.error (Fatal.CheckFailed "InputComponent")
  | some c => Except.ok (c ++ SetupBindings)

/-- `AFootprintsCharacter::TouchStarted`. -/
def TouchStarted {K : Type} (FingerIndex : ETouchIndex) (_Location : FVector K) :
    List (PawnCall K) :=
  if FingerIndex = ETouchIndex.Touch1 then [PawnCall.Jump] else []

/-- `AFootprintsCharacter::TouchStopped`. -/
def TouchStopped {K : Type} (FingerIndex : ETouchIndex) (_Location : FVector K) :
    List (PawnCall K) :=
  if FingerIndex = ETouchIndex.Touch1 then [PawnCall.StopJumping] else []

/-! ## Engine math interface

The rotation helpers below are engine functions; the character only calls them.
The character code is embedded over an arbitrary implementation of them. -/

/-- The engine math entry points called by the character, over matrix type `Mat`
and quaternion type `Quat`. -/
structure EngineMath (K Mat Quat : Type) where
  /-- Constructor `FRotationMatrix(const FRotator&)`. -/
  FRotationMatrix : FRotator K → Mat
  /-- Method `FMatrix::GetUnitAxis(EAxis::Type)`. -/
  GetUnitAxis : Mat → EAxis → FVector K
  /-- Static `FRotationMatrix::MakeFromZX(ZAxis, XAxis)`. -/
  MakeFromZX : FVector K → FVector K → Mat
  /-- Method `FMatrix::ToQuat()`. -/
  ToQuat : Mat → Quat
  /-- Constructor `FQuat(const FRotator&)`. -/
  FQuat : FRotator K → Quat
  /-- Operator `FQuat::operator*`. -/
  QuatMul : Quat → Quat → Quat
  /-- Method `FQuat::Rotator()`. -/
  Rotator : Quat → FRotator K

/-- An `AController`, as far as the character reads it. -/
structure AController (K : Type) where
  ControlRotation : FRotator K
deriving DecidableEq, Repr

/-- Direction computed at lines 108-112: the X axis of the yaw-only rotation matrix. -/
def ForwardDirection {K Mat Quat : Type} [Zero K] (E : EngineMath K Mat Quat)
    (Rotation : FRotator K) : FVector K :=
  let YawRotation : FRotator K := ⟨0, Rotation.Yaw, 0⟩
  E.GetUnitAxis (E.FRotationMatrix YawRotation) EAxis.X

/-- Direction computed at lines 122-126: the Y axis of the yaw-only rotation matrix. -/
def RightDirection {K Mat Quat : Type} [Zero K] (E : EngineMath K Mat Quat)
    (Rotation : FRotator K) : FVector K :=
  let YawRotation : FRotator K := ⟨0, Rotation.Yaw, 0⟩
  E.GetUnitAxis (E.FRotationMatrix YawRotation) EAxis.Y

/-- `AFootprintsCharacter::MoveForward`. -/
def MoveForward {K Mat Quat : Type} [Zero K] [DecidableEq K] (E : EngineMath K Mat Quat)
    (Controller : Option (AController K)) (Value : K) : List (PawnCall K) :=
  match Controller with
  | none => []
  | some c =>
    if Value ≠ 0 then
      let Rotation := c.ControlRotation
      [PawnCall.GetControlRotation,
       PawnCall.AddMovementInput (ForwardDirection E Rotation) Value]
    else []

/-- `AFootprintsCharacter::MoveRight`. -/
def MoveRight {K Mat Quat : Type} [Zero K] [DecidableEq K] (E : EngineMath K Mat Quat)
    (Controller : Option (AController K)) (Value : K) : List (PawnCall K) :=
  match Controller with
  | none => []
  | some c =>
    if Value ≠ 0 then
      let Rotation := c.ControlRotation
      [PawnCall.GetControlRotation,
       PawnCall.AddMovementInput (RightDirection E Rotation) Value]
    else []

/-! ## Footprints -/

/-- Engine `ECollisionChannel`, the channels relevant here. -/
inductive ECollisionChannel where
  | ECC_WorldStatic
  | ECC_WorldDynamic
  | ECC_Pawn
  | ECC_Visibility
  | ECC_Camera
deriving DecidableEq, Repr

/-- Actors a trace can be told to ignore. -/
inductive ActorRef where
  | this
deriving DecidableEq, Repr

/-- Engine `FCollisionQueryParams`, the fields the character sets. -/
structure FCollisionQueryParams where
  TraceTag : String
  bTraceComplex : Bool
  IgnoreActor : ActorRef
  bReturnPhysicalMaterial : Bool
deriving DecidableEq, Repr

/-- Arguments of one `UWorld::LineTraceSingleByChannel` call. -/
structure LineTraceCall (K : Type) where
  Start : FVector K
  End : FVector K
  TraceChannel : ECollisionChannel
  Params : FCollisionQueryParams
deriving DecidableEq, Repr

/-- Engine `FHitResult`, the fields the character reads.  `PhysMaterial` is what
`HitResult.PhysMaterial.Get()` yields, `none` for a null pointer. -/
structure FHitResult (K PM : Type) where
  Location : FVector K
  Normal : FVector K
  PhysMaterial : Option PM

/-- The world as seen by a trace: the hit information written to `OutHit`. -/
structure UWorld (K PM : Type) where
  LineTraceSingleByChannel : LineTraceCall K → FHitResult K PM

/-- The footprint registry `UFootprintTypes`, queried by physical material. -/
structure UFootprintTypes (PM FX Cls : Type) where
  GetFootprintFX : Option PM → Option FX
  GetFootprintDecal : Option PM → Option Cls

/-- A `UArrowComponent`, as far as `FootDown` reads it. -/
structure UArrowComponent (K : Type) where
  Location : FVector K
  ForwardVector : FVector K

/-- Spawn calls issued on the world. -/
inductive SpawnCall (K FX Cls : Type) where
  | SpawnActor (Class : Cls) (Location : FVector K) (Rotation : FRotator K)
  | SpawnEmitterAtLocation (EmitterTemplate : FX) (Location : FVector K)
deriving DecidableEq, Repr

/-- `AFootprintsCharacter::Trace`: the line trace issued and the resulting `OutHit`.
The two sums are those of the scalar type; at `K = F32` they are `float` operations. -/
def Trace {K PM : Type} [Add K] [Sub K] [OfNat K 20] (World : UWorld K PM)
    (Location : FVector K) : LineTraceCall K × FHitResult K PM :=
  let Start : FVector K := { Location with Z := Location.Z + 20 }
  let End : FVector K := { Location with Z := Location.Z - 20 }
  let TraceParams : FCollisionQueryParams :=
    { TraceTag := "Footprint trace", bTraceComplex := true, IgnoreActor := ActorRef.this,
      bReturnPhysicalMaterial := true }
  let call : LineTraceCall K := ⟨Start, End, ECollisionChannel.ECC_Visibility, TraceParams⟩
  (call, World.LineTraceSingleByChannel call)

/-- Lines 165-166: `floorRot * offsetRot`. -/
def FootDownQuat {K Mat Quat : Type} [Zero K] [Neg K] [OfNat K 90]
    (E : EngineMath K Mat Quat) (Normal Forward : FVector K) : Quat :=
  let floorRot := E.ToQuat (E.MakeFromZX Normal Forward)
  let offsetRot := E.FQuat ⟨0, -90, 0⟩
  E.QuatMul floorRot offsetRot

/-- Lines 165-167: the rotator handed to the decal spawn. -/
def FootDownRotation {K Mat Quat : Type} [Zero K] [Neg K] [OfNat K 90]
    (E : EngineMath K Mat Quat) (Normal Forward : FVector K) : FRotator K :=
  E.Rotator (FootDownQuat E Normal Forward)

/-- `AFootprintsCharacter::FootDown`: the spawn calls issued, in order. -/
def FootDown {K Mat Quat PM FX Cls : Type} [Zero K] [Neg K] [Add K] [Sub K]
    [OfNat K 20] [OfNat K 90]
    (E : EngineMath K Mat Quat) (World : UWorld K PM)
    (FootprintTypes : UFootprintTypes PM FX Cls) (FootArrow : UArrowComponent K) :
    List (SpawnCall K FX Cls) :=
  let FootWorldPosition := FootArrow.Location
  let Forward := FootArrow.ForwardVector
  let HitResult := (Trace World FootWorldPosition).2
  let PhysMat := HitResult.PhysMaterial
  let ParticleFX := FootprintTypes.GetFootprintFX PhysMat
  let Decal := FootprintTypes.GetFootprintDecal PhysMat
  let Rotation := FootDownRotation E HitResult.Normal Forward
  (match Decal with
    | some d => [SpawnCall.SpawnActor d HitResult.Location Rotation]
    | none => [])
  ++
  (match ParticleFX with
    | some fx => [SpawnCall.SpawnEmitterAtLocation fx HitResult.Location]
    | none => [])

/-! ## 32-bit floats

The scalar type of the source is the C++ `float`.  Its values and its addition and
subtraction are modelled after IEEE 754 binary32 with round-to-nearest, ties to even. -/

/-- The values of a 32-bit `float`: `finite m e` stands for `m * 2 ^ e`.  Results of
the operations below are in normal form: a 24-bit `m` with `-149 ≤ e ≤ 104`, or a
shorter `m` with `e = -149`.  The two signed zeros are identified. -/
inductive F32 where
  | finite (m : ℤ) (e : ℤ)
  | inf (negative : Bool)
  | nan
deriving DecidableEq, Repr

namespace F32

/-- Number of binary digits of `n`, by halving; `fuel` bounds the number of halvings. -/
def bitLengthAux : ℕ → ℕ → ℕ
  | 0, _ => 0
  | fuel + 1, n => if n = 0 then 0 else bitLengthAux fuel (n / 2) + 1

/-- Number of binary digits of `n`. -/
def bitLength (n : ℕ) : ℕ := bitLengthAux n n

/-- The `float` nearest to the exact value `M * 2 ^ E`, ties to even; values beyond the
largest finite `float` become infinite. -/
def round (M E : ℤ) : F32 :=
  if M = 0 then finite 0 (-149)
  else
    let a : ℕ := M.natAbs
    let bits : ℤ := (bitLength a : ℤ)
    let E1 : ℤ := max (E + bits - 24) (-149)
    let s : ℕ := (E1 - E).toNat
    let up : ℕ := (E - E1).toNat
    let q : ℕ := (a * 2 ^ up) / 2 ^ s
    let r : ℕ := (a * 2 ^ up) % 2 ^ s
    let q1 : ℕ := if 2 ^ s < 2 * r ∨ (2 * r = 2 ^ s ∧ q % 2 = 1) then q + 1 else q
    let q2 : ℕ := if q1 = 2 ^ 24 then 2 ^ 23 else q1
    let E2 : ℤ := if q1 = 2 ^ 24 then E1 + 1 else E1
    if 104 < E2 then inf (decide (M < 0))
    else finite (if M < 0 then -(q2 : ℤ) else (q2 : ℤ)) E2

/-- The `float` sum: the exact sum, rounded. -/
def add : F32 → F32 → F32
  | finite m1 e1, finite m2 e2 =>
      let E := min e1 e2
      round (m1 * 2 ^ (e1 - E).toNat + m2 * 2 ^ (e2 - E).toNat) E
  | nan, _ => nan
  | _, nan => nan
  | inf a, inf b => if a = b then inf a else nan
  | inf a, finite _ _ => inf a
  | finite _ _, inf b => inf b

/-- The `float` negation. -/
def neg : F32 → F32
  | finite m e => finite (-m) e
  | inf a => inf (!a)
  | nan => nan

/-- The `float` difference. -/
def sub (a b : F32) : F32 := add a (neg b)

instance : Add F32 := ⟨add⟩

instance : Sub F32 := ⟨sub⟩

instance : Neg F32 := ⟨neg⟩

/-- A literal such as `20.0f`: the `float` nearest to the integer. -/
instance (n : ℕ) : OfNat F32 n := ⟨round n 0⟩

end F32

/-! ## Exact model of the engine math

The engine's vector, matrix and quaternion routines are not part of this
repository.  They are modelled here in exact arithmetic: tolerance thresholds
become tests against zero, and a quaternion is identified with the rotation it
encodes (the images of the three local axes). -/

/-- Modelled from the spec: the engine scalar routines `FMath::Sin`, `FMath::Cos`,
`FMath::InvSqrt` and the constant `PI`, which the repository does not contain. -/
structure FMath (K : Type) where
  Sin : K → K
  Cos : K → K
  InvSqrt : K → K
  PI : K

namespace FVector

variable {K : Type} [LinearOrderedField K]

/-- Modelled from the spec: engine `FVector::operator|`, the dot product. -/
def Dot (a b : FVector K) : K := a.X * b.X + a.Y * b.Y + a.Z * b.Z

/-- Modelled from the spec: engine `FVector::operator^`, the cross product. -/
def Cross (a b : FVector K) : FVector K :=
  ⟨a.Y * b.Z - a.Z * b.Y, a.Z * b.X - a.X * b.Z, a.X * b.Y - a.Y * b.X⟩

/-- Modelled from the spec: engine `FVector::operator*(float)`. -/
def Scale (a : FVector K) (s : K) : FVector K := ⟨a.X * s, a.Y * s, a.Z * s⟩

/-- Modelled from the spec: engine `FVector::operator-(const FVector&)`. -/
def Sub (a b : FVector K) : FVector K := ⟨a.X - b.X, a.Y - b.Y, a.Z - b.Z⟩

/-- Modelled from the spec: engine unary `FVector::operator-`. -/
def Neg (a : FVector K) : FVector K := ⟨-a.X, -a.Y, -a.Z⟩

/-- Modelled from the spec: engine `FVector::SizeSquared`. -/
def SizeSquared (a : FVector K) : K := a.X * a.X + a.Y * a.Y + a.Z * a.Z

/-- Modelled from the spec: engine `FVector::GetSafeNormal`, with the tolerance taken
to zero: a unit vector is returned unchanged, the zero vector maps to zero, any other
vector is scaled by the inverse square root of its squared length. -/
def GetSafeNormal (m : FMath K) (a : FVector K) : FVector K :=
  let SquareSum := a.X * a.X + a.Y * a.Y + a.Z * a.Z
  if SquareSum = 1 then a
  else if SquareSum ≤ 0 then ⟨0, 0, 0⟩
  else
    let Scale := m.InvSqrt SquareSum
    ⟨a.X * Scale, a.Y * Scale, a.Z * Scale⟩

end FVector

/-- Modelled from the spec: the rotation part of an engine `FMatrix`, by rows: the
images of the local X, Y and Z axes. -/
structure FMatrix (K : Type) where
  XAxis : FVector K
  YAxis : FVector K
  ZAxis : FVector K
deriving DecidableEq, Repr

namespace FMatrix

variable {K : Type} [LinearOrderedField K]

/-- Modelled from the spec: engine `FMatrix::GetScaledAxis`. -/
def GetScaledAxis (M : FMatrix K) (Axis : EAxis) : FVector K :=
  match Axis with
  | EAxis.X => M.XAxis
  | EAxis.Y => M.YAxis
  | EAxis.Z => M.ZAxis

/-- Modelled from the spec: engine `FMatrix::GetUnitAxis`. -/
def GetUnitAxis (m : FMath K) (M : FMatrix K) (Axis : EAxis) : FVector K :=
  FVector.GetSafeNormal m (M.GetScaledAxis Axis)

/-- Modelled from the spec: engine `FMatrix::TransformVector`, the image of a local
vector: `V.X * XAxis + V.Y * YAxis + V.Z * ZAxis`. -/
def TransformVector (M : FMatrix K) (V : FVector K) : FVector K :=
  ⟨V.X * M.XAxis.X + V.Y * M.YAxis.X + V.Z * M.ZAxis.X,
   V.X * M.XAxis.Y + V.Y * M.YAxis.Y + V.Z * M.ZAxis.Y,
   V.X * M.XAxis.Z + V.Y * M.YAxis.Z + V.Z * M.ZAxis.Z⟩

/-- Modelled from the spec: engine constructor `FRotationMatrix(const FRotator&)`. -/
def FRotationMatrix (m : FMath K) (Rot : FRotator K) : FMatrix K :=
  let SP := m.Sin (Rot.Pitch * (m.PI / 180))
  let CP := m.Cos (Rot.Pitch * (m.PI / 180))
  let SY := m.Sin (Rot.Yaw * (m.PI / 180))
  let CY := m.Cos (Rot.Yaw * (m.PI / 180))
  let SR := m.Sin (Rot.Roll * (m.PI / 180))
  let CR := m.Cos (Rot.Roll * (m.PI / 180))
  { XAxis := ⟨CP * CY, CP * SY, SP⟩,
    YAxis := ⟨SR * SP * CY - CR * SY, SR * SP * SY + CR * CY, -SR * CP⟩,
    ZAxis := ⟨-(CR * SP * CY + SR * SY), CY * SR - CR * SP * SY, CR * CP⟩ }

/-- Modelled from the spec: engine `FRotationMatrix::MakeFromZX`: Z is the normalised
first argument, Y is the normalised cross product of Z with the normalised second
argument (replaced by a fixed axis when the two are parallel), X is `Y ^ Z`. -/
def MakeFromZX (m : FMath K) (ZAxis XAxis : FVector K) : FMatrix K :=
  let NewZ := FVector.GetSafeNormal m ZAxis
  let Norm0 := FVector.GetSafeNormal m XAxis
  let Norm : FVector K :=
    if |FVector.Dot NewZ Norm0| = 1 then
      (if |NewZ.Z| < 1 then ⟨0, 0, 1⟩ else ⟨1, 0, 0⟩)
    else Norm0
  let NewY := FVector.GetSafeNormal m (FVector.Cross NewZ Norm)
  let NewX := FVector.Cross NewY NewZ
  { XAxis := NewX, YAxis := NewY, ZAxis := NewZ }

/-- Modelled from the spec: engine `FQuat::operator*` on the encoded rotations:
`A * B` applies `B` first and then `A`. -/
def Compose (A B : FMatrix K) : FMatrix K :=
  { XAxis := A.TransformVector B.XAxis,
    YAxis := A.TransformVector B.YAxis,
    ZAxis := A.TransformVector B.ZAxis }

end FMatrix

/-- Modelled from the spec: the engine math entry points in exact arithmetic, a
quaternion being represented by the rotation it encodes.  The conversion
`FQuat::Rotator` to Euler angles is left as the parameter `Rotator`. -/
def ExactEngine {K : Type} [LinearOrderedField K] (m : FMath K)
    (Rotator : FMatrix K → FRotator K) : EngineMath K (FMatrix K) (FMatrix K) where
  FRotationMatrix := FMatrix.FRotationMatrix m
  GetUnitAxis := FMatrix.GetUnitAxis m
  MakeFromZX := FMatrix.MakeFromZX m
  ToQuat := fun M => M
  FQuat := FMatrix.FRotationMatrix m
  QuatMul := FMatrix.Compose
  Rotator := Rotator

/-- Modelled from the spec: engine `FQuat::RotateVector` on the encoded rotation. -/
def RotateVector {K : Type} [LinearOrderedField K] (Q : FMatrix K) (V : FVector K) :
    FVector K :=
  Q.TransformVector V

/-- The scalar routines are the exact real functions. -/
structure FMath.Exact (m : FMath ℝ) : Prop where
  sin_eq : ∀ x, m.Sin x = Real.sin x
  cos_eq : ∀ x, m.Cos x = Real.cos x
  invSqrt_eq : ∀ x, m.InvSqrt x = (Real.sqrt x)⁻¹
  pi_eq : m.PI = Real.pi

/-! ## Sample data -/

/-- Scalar routines over the rationals for evaluating the glue code; the values are
arbitrary. -/
def sampleMath : FMath ℚ := ⟨fun _ => 0, fun _ => 1, fun _ => 1, 3⟩

/-- A rational instance of the engine math. -/
def sampleEngine : EngineMath ℚ (FMatrix ℚ) (FMatrix ℚ) :=
  ExactEngine sampleMath (fun Q => ⟨Q.XAxis.Z, Q.XAxis.Y, Q.YAxis.Z⟩)

/-- Ground kinds of the sample world. -/
inductive SampleMaterial where
  | Grass
  | Stone
deriving DecidableEq, Repr

/-- A flat world whose ground at height 0 is grass. -/
def sampleWorld : UWorld ℚ SampleMaterial :=
  ⟨fun call => ⟨⟨call.Start.X, call.Start.Y, 0⟩, ⟨0, 0, 1⟩, some SampleMaterial.Grass⟩⟩

/-- A registry with a dust effect for grass and no decal for it. -/
def sampleDustOnly : UFootprintTypes SampleMaterial String String :=
  ⟨fun pm => if pm = some SampleMaterial.Grass then some "P_Dust" else none,
   fun pm => if pm = some SampleMaterial.Stone then some "BP_StoneDecal" else none⟩

/-- A foot marker five units above the ground, pointing along +X. -/
def sampleArrow : UArrowComponent ℚ := ⟨⟨3, 4, 5⟩, ⟨1, 0, 0⟩⟩


/-! ## Input handlers -/

/-- C8: on a non-null input component `SetupPlayerInputComponent` appends exactly the
ten registrations of the source, in order (Jump pressed and released, the six axes,
touch pressed and released), each axis name occurring exactly once among them; on a
null component the `check` fails and no component state is produced. -/
theorem SetupPlayerInputComponent_bindings (c : UInputComponent) :
    SetupPlayerInputComponent (some c) = Except.ok (c ++
      [ Binding.BindAction "Jump" EInputEvent.IE_Pressed Handler.ACharacter_Jump,
        Binding.BindAction "Jump" EInputEvent.IE_Released Handler.ACharacter_StopJumping,
        Binding.BindAxis "MoveForward" Handler.MoveForward,
        Binding.BindAxis "MoveRight" Handler.MoveRight,
        Binding.BindAxis "Turn" Handler.APawn_AddControllerYawInput,
        Binding.BindAxis "TurnRate" Handler.TurnAtRate,
        Binding.BindAxis "LookUp" Handler.APawn_AddControllerPitchInput,
        Binding.BindAxis "LookUpRate" Handler.LookUpAtRate,
        Binding.BindTouch EInputEvent.IE_Pressed Handler.TouchStarted,
        Binding.BindTouch EInputEvent.IE_Released Handler.TouchStopped ])
    ∧ (∀ name ∈ ["MoveForward", "MoveRight", "Turn", "TurnRate", "LookUp", "LookUpRate"],
        (SetupBindings.filter (fun b =>
          match b with
          | Binding.BindAxis n _ => n == name
          | _ => false)).length = 1)
    ∧ (SetupBindings.filter (fun b =>
          match b with
          | Binding.BindAxis _ _ => true
          | _ => false)).length = 6
    ∧ SetupPlayerInputComponent none = Except.error (Fatal.CheckFailed "InputComponent") := by
  refine ⟨rfl, ?_, by decide, rfl⟩
  decide

/-- C7: `TouchStarted` issues `Jump` exactly when the finger is `Touch1`, `TouchStopped`
issues `StopJumping` exactly when the finger is `Touch1`, for any other finger both
issue nothing, and the touch location does not affect either. -/
theorem Touch_handlers {K : Type} (FingerIndex : ETouchIndex) (Location Location2 : FVector K) :
    (TouchStarted FingerIndex Location =
        if FingerIndex = ETouchIndex.Touch1 then [PawnCall.Jump] else [])
    ∧ (TouchStopped FingerIndex Location =
        if FingerIndex = ETouchIndex.Touch1 then [PawnCall.StopJumping] else [])
    ∧ (PawnCall.Jump ∈ TouchStarted FingerIndex Location ↔ FingerIndex = ETouchIndex.Touch1)
    ∧ (PawnCall.StopJumping ∈ TouchStopped FingerIndex Location ↔
        FingerIndex = ETouchIndex.Touch1)
    ∧ (FingerIndex ≠ ETouchIndex.Touch1 →
        TouchStarted FingerIndex Location = [] ∧ TouchStopped FingerIndex Location = [])
    ∧ TouchStarted FingerIndex Location = TouchStarted FingerIndex Location2
    ∧ TouchStopped FingerIndex Location = TouchStopped FingerIndex Location2 := by
  unfold TouchStarted TouchStopped
  by_cases h : FingerIndex = ETouchIndex.Touch1 <;> simp [h]

/-- Witness for C7 at the second finger. -/
theorem Touch_handlers_witness :
    (TouchStarted ETouchIndex.Touch2 (⟨1, 2, 3⟩ : FVector ℚ) = []
      ∧ TouchStopped ETouchIndex.Touch2 (⟨1, 2, 3⟩ : FVector ℚ) = [])
    ∧ TouchStarted ETouchIndex.Touch1 (⟨1, 2, 3⟩ : FVector ℚ) = [PawnCall.Jump] :=
  ⟨(Touch_handlers ETouchIndex.Touch2 (⟨1, 2, 3⟩ : FVector ℚ) ⟨0, 0, 0⟩).2.2.2.2.1 (by decide),
   (Touch_handlers ETouchIndex.Touch1 (⟨1, 2, 3⟩ : FVector ℚ) ⟨0, 0, 0⟩).1⟩

/-- C6: `MoveForward` and `MoveRight` issue the control-rotation read followed by one
`AddMovementInput` with scale `Value` when a controller is present and `Value` is
non-zero, and issue nothing at all otherwise. -/
theorem Move_gate {K Mat Quat : Type} [Zero K] [DecidableEq K] (E : EngineMath K Mat Quat)
    (Controller : Option (AController K)) (Value : K) :
    ((Controller ≠ none ∧ Value ≠ 0) →
      ∃ c, Controller = some c
        ∧ MoveForward E Controller Value =
            [PawnCall.GetControlRotation,
             PawnCall.AddMovementInput (ForwardDirection E c.ControlRotation) Value]
        ∧ MoveRight E Controller Value =
            [PawnCall.GetControlRotation,
             PawnCall.AddMovementInput (RightDirection E c.ControlRotation) Value])
    ∧ (¬ (Controller ≠ none ∧ Value ≠ 0) →
        MoveForward E Controller Value = [] ∧ MoveRight E Controller Value = [])
    ∧ ((∃ d s, PawnCall.AddMovementInput d s ∈ MoveForward E Controller Value) ↔
        (Controller ≠ none ∧ Value ≠ 0))
    ∧ ((∃ d s, PawnCall.AddMovementInput d s ∈ MoveRight E Controller Value) ↔
        (Controller ≠ none ∧ Value ≠ 0)) := by
  cases Controller with
  | none => simp [MoveForward, MoveRight]
  | some c =>
    by_cases hv : Value = 0
    · simp [MoveForward, MoveRight, hv]
    · simp [MoveForward, MoveRight, hv]

/-- Witness for C6: a present controller and value 2, and an absent controller. -/
theorem Move_gate_witness :
    (∃ c, some (⟨⟨10, 30, 5⟩⟩ : AController ℚ) = some c
        ∧ MoveForward sampleEngine (some ⟨⟨10, 30, 5⟩⟩) 2 =
            [PawnCall.GetControlRotation,
             PawnCall.AddMovementInput (ForwardDirection sampleEngine c.ControlRotation) 2]
        ∧ MoveRight sampleEngine (some ⟨⟨10, 30, 5⟩⟩) 2 =
            [PawnCall.GetControlRotation,
             PawnCall.AddMovementInput (RightDirection sampleEngine c.ControlRotation) 2])
    ∧ (MoveForward sampleEngine none 2 = [] ∧ MoveRight sampleEngine none 2 = []) :=
  ⟨(Move_gate sampleEngine (some ⟨⟨10, 30, 5⟩⟩) 2).1 ⟨by simp, by norm_num⟩,
   (Move_gate sampleEngine none 2).2.1 (by simp)⟩


/-! ## Trace and foot-down -/

/-- The halving count agrees with the binary logarithm. -/
theorem F32.bitLengthAux_eq (fuel n : ℕ) (h : n ≤ fuel) (hn : n ≠ 0) :
    F32.bitLengthAux fuel n = Nat.log2 n + 1 := by
  induction fuel generalizing n with
  | zero => omega
  | succ f ih =>
    rw [F32.bitLengthAux, if_neg hn]
    by_cases h2 : n / 2 = 0
    · have h1 : n = 1 := by omega
      subst h1
      cases f <;> simp [F32.bitLengthAux, Nat.log2]
    · rw [ih (n / 2) (by omega) h2]
      conv_rhs => rw [Nat.log2]
      have h3 : n ≥ 2 := by omega
      simp [h3]

/-- The number of binary digits of a positive `n` is `log2 n + 1`. -/
theorem F32.bitLength_eq (n : ℕ) (hn : n ≠ 0) : F32.bitLength n = Nat.log2 n + 1 :=
  F32.bitLengthAux_eq n n (le_refl n) hn

/-- C1: the spawn calls of `FootDown` are the decal spawn at the hit location with the
computed rotation, present exactly when the decal lookup for the hit material returned
a class, followed by the emitter spawn at the hit location, present exactly when the
particle lookup for the same material returned an asset; nothing else is issued. -/
theorem FootDown_spawns {K Mat Quat PM FX Cls : Type} [Zero K] [Neg K] [Add K] [Sub K]
    [OfNat K 20] [OfNat K 90]
    (E : EngineMath K Mat Quat) (World : UWorld K PM)
    (FootprintTypes : UFootprintTypes PM FX Cls) (FootArrow : UArrowComponent K) :
    let Hit := World.LineTraceSingleByChannel (Trace World FootArrow.Location).1
    FootDown E World FootprintTypes FootArrow =
      ((FootprintTypes.GetFootprintDecal Hit.PhysMaterial).map (fun d =>
          SpawnCall.SpawnActor d Hit.Location
            (E.Rotator (E.QuatMul (E.ToQuat (E.MakeFromZX Hit.Normal FootArrow.ForwardVector))
              (E.FQuat ⟨0, -90, 0⟩))))).toList
      ++ ((FootprintTypes.GetFootprintFX Hit.PhysMaterial).map (fun fx =>
          SpawnCall.SpawnEmitterAtLocation fx Hit.Location)).toList := by
  intro Hit
  unfold FootDown
  simp only [Hit, Trace, FootDownRotation, FootDownQuat]
  cases FootprintTypes.GetFootprintDecal _ <;> cases FootprintTypes.GetFootprintFX _ <;> rfl

/-- C2 as stated fails: with no decal class for the hit material but a particle asset
for it, `FootDown` still issues a spawn call. -/
theorem FootDown_no_decal_counterexample :
    sampleDustOnly.GetFootprintDecal
        (sampleWorld.LineTraceSingleByChannel (Trace sampleWorld sampleArrow.Location).1).PhysMaterial
      = none
    ∧ FootDown sampleEngine sampleWorld sampleDustOnly sampleArrow
      = [SpawnCall.SpawnEmitterAtLocation "P_Dust" ⟨3, 4, 0⟩]
    ∧ FootDown sampleEngine sampleWorld sampleDustOnly sampleArrow ≠ [] := by
  refine ⟨by decide, ?_, ?_⟩
  · rfl
  · intro h
    have h2 : FootDown sampleEngine sampleWorld sampleDustOnly sampleArrow
        = [SpawnCall.SpawnEmitterAtLocation "P_Dust" ⟨3, 4, 0⟩] := rfl
    rw [h2] at h
    exact List.cons_ne_nil _ _ h

/-- C2 amended: when the decal lookup for the hit material returns no class, `FootDown`
issues no decal-actor spawn; its spawn calls are then just the emitter spawn at the hit
location, present exactly when the particle lookup returned an asset. -/
theorem FootDown_no_decal {K Mat Quat PM FX Cls : Type} [Zero K] [Neg K] [Add K] [Sub K]
    [OfNat K 20] [OfNat K 90]
    (E : EngineMath K Mat Quat) (World : UWorld K PM)
    (FootprintTypes : UFootprintTypes PM FX Cls) (FootArrow : UArrowComponent K)
    (hDecal : FootprintTypes.GetFootprintDecal
      (World.LineTraceSingleByChannel (Trace World FootArrow.Location).1).PhysMaterial = none) :
    (∀ d l r, SpawnCall.SpawnActor d l r ∉ FootDown E World FootprintTypes FootArrow)
    ∧ FootDown E World FootprintTypes FootArrow =
        ((FootprintTypes.GetFootprintFX
            (World.LineTraceSingleByChannel (Trace World FootArrow.Location).1).PhysMaterial).map
          (fun fx => SpawnCall.SpawnEmitterAtLocation fx
            (World.LineTraceSingleByChannel (Trace World FootArrow.Location).1).Location)).toList := by
  have key : FootDown E World FootprintTypes FootArrow =
        ((FootprintTypes.GetFootprintFX
            (World.LineTraceSingleByChannel (Trace World FootArrow.Location).1).PhysMaterial).map
          (fun fx => SpawnCall.SpawnEmitterAtLocation fx
            (World.LineTraceSingleByChannel (Trace World FootArrow.Location).1).Location)).toList := by
    unfold FootDown
    simp only [Trace] at hDecal ⊢
    rw [hDecal]
    cases FootprintTypes.GetFootprintFX _ <;> rfl
  refine ⟨?_, key⟩
  intro d l r hmem
  rw [key] at hmem
  cases hfx : FootprintTypes.GetFootprintFX
      (World.LineTraceSingleByChannel (Trace World FootArrow.Location).1).PhysMaterial with
  | none => rw [hfx] at hmem; simp at hmem
  | some fx => rw [hfx] at hmem; simp at hmem

/-- Witness for the amended C2 on the sample world. -/
theorem FootDown_no_decal_witness :
    (∀ d l r, SpawnCall.SpawnActor d l r ∉
        FootDown sampleEngine sampleWorld sampleDustOnly sampleArrow)
    ∧ FootDown sampleEngine sampleWorld sampleDustOnly sampleArrow =
        ((sampleDustOnly.GetFootprintFX
            (sampleWorld.LineTraceSingleByChannel
              (Trace sampleWorld sampleArrow.Location).1).PhysMaterial).map
          (fun fx => SpawnCall.SpawnEmitterAtLocation fx
            (sampleWorld.LineTraceSingleByChannel
              (Trace sampleWorld sampleArrow.Location).1).Location)).toList :=
  FootDown_no_decal sampleEngine sampleWorld sampleDustOnly sampleArrow (by decide)


/-! ## Rotation math in the exact model -/

section ExactModel

variable {m : FMath ℝ}

theorem FRotationMatrix_yaw (hm : m.Exact) (Yaw : ℝ) :
    FMatrix.FRotationMatrix m ⟨0, Yaw, 0⟩ =
      { XAxis := ⟨Real.cos (Yaw * (Real.pi / 180)), Real.sin (Yaw * (Real.pi / 180)), 0⟩,
        YAxis := ⟨-Real.sin (Yaw * (Real.pi / 180)), Real.cos (Yaw * (Real.pi / 180)), 0⟩,
        ZAxis := ⟨0, 0, 1⟩ } := by
  simp [FMatrix.FRotationMatrix, hm.sin_eq, hm.cos_eq, hm.pi_eq]

theorem FRotationMatrix_offset (hm : m.Exact) :
    FMatrix.FRotationMatrix m ⟨0, -90, 0⟩ =
      { XAxis := ⟨0, -1, 0⟩, YAxis := ⟨1, 0, 0⟩, ZAxis := ⟨0, 0, 1⟩ } := by
  rw [FRotationMatrix_yaw hm]
  have h : (-90 : ℝ) * (Real.pi / 180) = -(Real.pi / 2) := by ring
  rw [h, Real.cos_neg, Real.sin_neg, Real.cos_pi_div_two, Real.sin_pi_div_two]
  simp

theorem GetSafeNormal_exact (hm : m.Exact) (v : FVector ℝ) (hv : v.SizeSquared ≠ 0) :
    FVector.GetSafeNormal m v = v.Scale (Real.sqrt v.SizeSquared)⁻¹ := by
  have hnn : 0 ≤ v.SizeSquared := by
    unfold FVector.SizeSquared
    nlinarith [mul_self_nonneg v.X, mul_self_nonneg v.Y, mul_self_nonneg v.Z]
  unfold FVector.GetSafeNormal
  simp only []
  by_cases h1 : v.X * v.X + v.Y * v.Y + v.Z * v.Z = 1
  · rw [if_pos h1]
    have : v.SizeSquared = 1 := h1
    rw [this]
    simp [FVector.Scale]
  · rw [if_neg h1]
    have hpos : ¬ (v.X * v.X + v.Y * v.Y + v.Z * v.Z ≤ 0) := by
      intro hle
      exact hv (le_antisymm hle hnn)
    rw [if_neg hpos, hm.invSqrt_eq]
    rfl

end ExactModel

section ExactAxes

variable {m : FMath ℝ}

theorem SizeSquared_nonneg (v : FVector ℝ) : 0 ≤ v.SizeSquared := by
  unfold FVector.SizeSquared
  nlinarith [mul_self_nonneg v.X, mul_self_nonneg v.Y, mul_self_nonneg v.Z]

theorem SizeSquared_ne_zero {v : FVector ℝ} (hv : v ≠ ⟨0, 0, 0⟩) : v.SizeSquared ≠ 0 := by
  intro h
  apply hv
  unfold FVector.SizeSquared at h
  have hx : v.X = 0 := by nlinarith [mul_self_nonneg v.X, mul_self_nonneg v.Y, mul_self_nonneg v.Z]
  have hy : v.Y = 0 := by nlinarith [mul_self_nonneg v.X, mul_self_nonneg v.Y, mul_self_nonneg v.Z]
  have hz : v.Z = 0 := by nlinarith [mul_self_nonneg v.X, mul_self_nonneg v.Y, mul_self_nonneg v.Z]
  cases v
  simp_all

/-- Lagrange identity for the modelled dot and cross products. -/
theorem Cross_SizeSquared (a b : FVector ℝ) :
    (FVector.Cross a b).SizeSquared
      = a.SizeSquared * b.SizeSquared - FVector.Dot a b * FVector.Dot a b := by
  simp only [FVector.Cross, FVector.SizeSquared, FVector.Dot]
  ring

/-- The composed rotation of `FootDown` in the exact model: the local X axis goes to
the negated floor Y axis, local Y to the floor X axis, local Z to the floor Z axis. -/
theorem FootDownQuat_axes (hm : m.Exact) (Rotator : FMatrix ℝ → FRotator ℝ)
    (N F : FVector ℝ) :
    FootDownQuat (ExactEngine m Rotator) N F =
      { XAxis := (FMatrix.MakeFromZX m N F).YAxis.Neg,
        YAxis := (FMatrix.MakeFromZX m N F).XAxis,
        ZAxis := (FMatrix.MakeFromZX m N F).ZAxis } := by
  simp only [FootDownQuat, ExactEngine]
  rw [FRotationMatrix_offset hm]
  simp [FMatrix.Compose, FMatrix.TransformVector, FVector.Neg]

/-- Scaling by a positive factor does not change the safe normal. -/
theorem GetSafeNormal_Scale (hm : m.Exact) (v : FVector ℝ) (hv : v.SizeSquared ≠ 0)
    (s : ℝ) (hs : 0 < s) :
    FVector.GetSafeNormal m (v.Scale s) = v.Scale (Real.sqrt v.SizeSquared)⁻¹ := by
  have hvpos : 0 < v.SizeSquared := lt_of_le_of_ne (SizeSquared_nonneg v) (Ne.symm hv)
  have hss : (v.Scale s).SizeSquared = s ^ 2 * v.SizeSquared := by
    simp only [FVector.Scale, FVector.SizeSquared]
    ring
  have hne : (v.Scale s).SizeSquared ≠ 0 := by
    rw [hss]
    positivity
  rw [GetSafeNormal_exact hm _ hne, hss, Real.sqrt_mul (by positivity), Real.sqrt_sq hs.le]
  have hsq : 0 < Real.sqrt v.SizeSquared := Real.sqrt_pos.mpr hvpos
  simp only [FVector.Scale]
  congr 1 <;> field_simp <;> ring

/-- The floor frame in the exact model for a unit normal and a forward vector not
parallel to it. -/
theorem MakeFromZX_unit (hm : m.Exact) (N F : FVector ℝ) (hN : N.SizeSquared = 1)
    (hF : FVector.Cross N F ≠ ⟨0, 0, 0⟩) :
    FMatrix.MakeFromZX m N F =
      { XAxis := (F.Sub (N.Scale (FVector.Dot F N))).Scale
          (Real.sqrt (FVector.Cross N F).SizeSquared)⁻¹,
        YAxis := (FVector.Cross N F).Scale (Real.sqrt (FVector.Cross N F).SizeSquared)⁻¹,
        ZAxis := N } := by
  have hc : (FVector.Cross N F).SizeSquared ≠ 0 := SizeSquared_ne_zero hF
  have hcpos : 0 < (FVector.Cross N F).SizeSquared :=
    lt_of_le_of_ne (SizeSquared_nonneg _) (Ne.symm hc)
  have hlag := Cross_SizeSquared N F
  rw [hN, one_mul] at hlag
  have hfpos : 0 < F.SizeSquared := by nlinarith [mul_self_nonneg (FVector.Dot N F)]
  have hN1 : N.X * N.X + N.Y * N.Y + N.Z * N.Z = 1 := hN
  have hZ : FVector.GetSafeNormal m N = N := by
    unfold FVector.GetSafeNormal
    simp only []
    rw [if_pos hN1]
  have hX : FVector.GetSafeNormal m F = F.Scale (Real.sqrt F.SizeSquared)⁻¹ :=
    GetSafeNormal_exact hm F hfpos.ne'
  have hspos : 0 < (Real.sqrt F.SizeSquared)⁻¹ := inv_pos.mpr (Real.sqrt_pos.mpr hfpos)
  have hdot : FVector.Dot N (F.Scale (Real.sqrt F.SizeSquared)⁻¹)
      = FVector.Dot N F * (Real.sqrt F.SizeSquared)⁻¹ := by
    simp only [FVector.Dot, FVector.Scale]
    ring
  have hnp : ¬ (|FVector.Dot N (F.Scale (Real.sqrt F.SizeSquared)⁻¹)| = 1) := by
    intro habs
    have hsq : (FVector.Dot N (F.Scale (Real.sqrt F.SizeSquared)⁻¹)) ^ 2 = 1 := by
      rw [← sq_abs, habs]
      norm_num
    rw [hdot, mul_pow, inv_pow, Real.sq_sqrt hfpos.le] at hsq
    have : FVector.Dot N F ^ 2 = F.SizeSquared := by
      field_simp at hsq
      linarith
    nlinarith
  have hcross : FVector.Cross N (F.Scale (Real.sqrt F.SizeSquared)⁻¹)
      = (FVector.Cross N F).Scale (Real.sqrt F.SizeSquared)⁻¹ := by
    simp only [FVector.Cross, FVector.Scale]
    congr 1 <;> ring
  unfold FMatrix.MakeFromZX
  simp only []
  rw [hZ, hX, if_neg hnp, hcross, GetSafeNormal_Scale hm _ hc _ hspos]
  congr 1
  generalize (Real.sqrt (FVector.Cross N F).SizeSquared)⁻¹ = c
  simp only [FVector.Cross, FVector.Scale, FVector.Sub, FVector.Dot]
  congr 1
  · linear_combination (c * F.X) * hN1
  · linear_combination (c * F.Y) * hN1
  · linear_combination (c * F.Z) * hN1

/-- For a unit normal the projection of `F` onto the surface plane is as long as
`N ^ F`. -/
theorem Projection_SizeSquared (N F : FVector ℝ) (hN : N.SizeSquared = 1) :
    (F.Sub (N.Scale (FVector.Dot F N))).SizeSquared = (FVector.Cross N F).SizeSquared := by
  simp only [FVector.Cross, FVector.SizeSquared, FVector.Dot, FVector.Sub, FVector.Scale] at *
  linear_combination
    ((F.X * N.X + F.Y * N.Y + F.Z * N.Z) ^ 2 - (F.X * F.X + F.Y * F.Y + F.Z * F.Z)) * hN

/-- For a unit normal and a forward vector not parallel to it the floor frame is
orthonormal and right-handed, so it is the rotation that its quaternion encodes. -/
theorem MakeFromZX_unit_orthonormal (hm : m.Exact) (N F : FVector ℝ) (hN : N.SizeSquared = 1)
    (hF : FVector.Cross N F ≠ ⟨0, 0, 0⟩) :
    let M := FMatrix.MakeFromZX m N F
    M.XAxis.SizeSquared = 1 ∧ M.YAxis.SizeSquared = 1 ∧ M.ZAxis.SizeSquared = 1
    ∧ FVector.Dot M.XAxis M.YAxis = 0 ∧ FVector.Dot M.YAxis M.ZAxis = 0
    ∧ FVector.Dot M.XAxis M.ZAxis = 0
    ∧ FVector.Cross M.XAxis M.YAxis = M.ZAxis := by
  intro M
  have hM : M = _ := MakeFromZX_unit hm N F hN hF
  have hc : (FVector.Cross N F).SizeSquared ≠ 0 := SizeSquared_ne_zero hF
  have hcpos : 0 < (FVector.Cross N F).SizeSquared :=
    lt_of_le_of_ne (SizeSquared_nonneg _) (Ne.symm hc)
  have hk : (Real.sqrt (FVector.Cross N F).SizeSquared)⁻¹ ^ 2 * (FVector.Cross N F).SizeSquared
      = 1 := by
    rw [inv_pow, Real.sq_sqrt hcpos.le]
    field_simp
  have hp := Projection_SizeSquared N F hN
  rw [hM]
  generalize (Real.sqrt (FVector.Cross N F).SizeSquared)⁻¹ = k at hk
  simp only [FVector.Cross, FVector.Scale, FVector.Sub, FVector.Dot, FVector.SizeSquared]
    at hN hk hp ⊢
  refine ⟨?_, ?_, hN, ?_, ?_, ?_, ?_⟩
  · linear_combination hk + k ^ 2 * hp
  · linear_combination hk
  · ring
  · ring
  · linear_combination (-(k * (F.X * N.X + F.Y * N.Y + F.Z * N.Z))) * hN
  · congr 1
    · linear_combination N.X * hk
        + (k ^ 2 * (F.X * (F.X * N.X + F.Y * N.Y + F.Z * N.Z)
            - N.X * (F.X * F.X + F.Y * F.Y + F.Z * F.Z))) * hN
    · linear_combination N.Y * hk
        + (k ^ 2 * (F.Y * (F.X * N.X + F.Y * N.Y + F.Z * N.Z)
            - N.Y * (F.X * F.X + F.Y * F.Y + F.Z * F.Z))) * hN
    · linear_combination N.Z * hk
        + (k ^ 2 * (F.Z * (F.X * N.X + F.Y * N.Y + F.Z * N.Z)
            - N.Z * (F.X * F.X + F.Y * F.Y + F.Z * F.Z))) * hN

end ExactAxes

/-- C10: in the exact model, for every control rotation the direction of `MoveForward` is
`(cos yaw, sin yaw, 0)` and that of `MoveRight` is `(-sin yaw, cos yaw, 0)` (yaw in
degrees); both have length one and zero Z, they are orthogonal, and they are unchanged
by the pitch and roll of the control rotation. -/
theorem Move_directions (m : FMath ℝ) (hm : m.Exact) (Rotator : FMatrix ℝ → FRotator ℝ)
    (Rotation : FRotator ℝ) :
    let E := ExactEngine m Rotator
    let yaw := Rotation.Yaw * (Real.pi / 180)
    ForwardDirection E Rotation = ⟨Real.cos yaw, Real.sin yaw, 0⟩
    ∧ RightDirection E Rotation = ⟨-Real.sin yaw, Real.cos yaw, 0⟩
    ∧ Real.sqrt (ForwardDirection E Rotation).SizeSquared = 1
    ∧ Real.sqrt (RightDirection E Rotation).SizeSquared = 1
    ∧ (ForwardDirection E Rotation).Z = 0
    ∧ (RightDirection E Rotation).Z = 0
    ∧ FVector.Dot (ForwardDirection E Rotation) (RightDirection E Rotation) = 0
    ∧ (∀ Pitch Roll : ℝ,
        ForwardDirection E ⟨Pitch, Rotation.Yaw, Roll⟩ = ForwardDirection E Rotation
        ∧ RightDirection E ⟨Pitch, Rotation.Yaw, Roll⟩ = RightDirection E Rotation) := by
  intro E yaw
  have hf : ForwardDirection E Rotation = ⟨Real.cos yaw, Real.sin yaw, 0⟩ := by
    simp only [ForwardDirection, E, ExactEngine, FMatrix.GetUnitAxis, FMatrix.GetScaledAxis]
    rw [FRotationMatrix_yaw hm]
    have hs : (⟨Real.cos yaw, Real.sin yaw, 0⟩ : FVector ℝ).SizeSquared = 1 := by
      simp only [FVector.SizeSquared]
      nlinarith [Real.sin_sq_add_cos_sq yaw]
    rw [GetSafeNormal_exact hm _ (by rw [hs]; norm_num), hs]
    simp [FVector.Scale]
  have hr : RightDirection E Rotation = ⟨-Real.sin yaw, Real.cos yaw, 0⟩ := by
    simp only [RightDirection, E, ExactEngine, FMatrix.GetUnitAxis, FMatrix.GetScaledAxis]
    rw [FRotationMatrix_yaw hm]
    have hs : (⟨-Real.sin yaw, Real.cos yaw, 0⟩ : FVector ℝ).SizeSquared = 1 := by
      simp only [FVector.SizeSquared]
      nlinarith [Real.sin_sq_add_cos_sq yaw]
    rw [GetSafeNormal_exact hm _ (by rw [hs]; norm_num), hs]
    simp [FVector.Scale]
  refine ⟨hf, hr, ?_, ?_, ?_, ?_, ?_, ?_⟩
  · rw [hf]
    have hs : (⟨Real.cos yaw, Real.sin yaw, 0⟩ : FVector ℝ).SizeSquared = 1 := by
      simp only [FVector.SizeSquared]
      nlinarith [Real.sin_sq_add_cos_sq yaw]
    rw [hs, Real.sqrt_one]
  · rw [hr]
    have hs : (⟨-Real.sin yaw, Real.cos yaw, 0⟩ : FVector ℝ).SizeSquared = 1 := by
      simp only [FVector.SizeSquared]
      nlinarith [Real.sin_sq_add_cos_sq yaw]
    rw [hs, Real.sqrt_one]
  · rw [hf]
  · rw [hr]
  · rw [hf, hr]
    simp only [FVector.Dot]
    ring
  · intro Pitch Roll
    exact ⟨rfl, rfl⟩


/-- C4: in the exact model, for every non-zero surface normal `N` and every foot-forward
vector `F` not parallel to it, the composed rotation `floorRot * offsetRot` of `FootDown`
maps the local up axis `(0, 0, 1)` to `N / |N|`. -/
theorem FootDown_up_axis (m : FMath ℝ) (hm : m.Exact) (Rotator : FMatrix ℝ → FRotator ℝ)
    (N F : FVector ℝ) (hN : N ≠ ⟨0, 0, 0⟩) (_hF : FVector.Cross N F ≠ ⟨0, 0, 0⟩) :
    RotateVector (FootDownQuat (ExactEngine m Rotator) N F) ⟨0, 0, 1⟩
      = N.Scale (Real.sqrt N.SizeSquared)⁻¹ := by
  rw [FootDownQuat_axes hm]
  have hz : (FMatrix.MakeFromZX m N F).ZAxis = FVector.GetSafeNormal m N := rfl
  simp only [RotateVector, FMatrix.TransformVector, hz,
    GetSafeNormal_exact hm N (SizeSquared_ne_zero hN)]
  simp [FVector.Scale]

/-- Witness for C4: normal `(0, 0, 2)`, forward `(1, 0, 0)`. -/
theorem FootDown_up_axis_witness :
    RotateVector (FootDownQuat
        (ExactEngine ⟨Real.sin, Real.cos, fun x => (Real.sqrt x)⁻¹, Real.pi⟩
          (fun _ => ⟨0, 0, 0⟩)) ⟨0, 0, 2⟩ ⟨1, 0, 0⟩) ⟨0, 0, 1⟩
      = (⟨0, 0, 2⟩ : FVector ℝ).Scale (Real.sqrt (⟨0, 0, 2⟩ : FVector ℝ).SizeSquared)⁻¹ :=
  FootDown_up_axis _ ⟨fun _ => rfl, fun _ => rfl, fun _ => rfl, rfl⟩ _ _ _
    (by simp) (by simp [FVector.Cross])

/-- C9: in the exact model, for every unit surface normal `N` and every foot-forward
vector `F` not parallel to it, the composed rotation of `FootDown` maps the local Y axis
to the normalised projection of `F` onto the surface plane and the local X axis to the
negated normalised `N ^ F`. -/
theorem FootDown_forward_axis (m : FMath ℝ) (hm : m.Exact) (Rotator : FMatrix ℝ → FRotator ℝ)
    (N F : FVector ℝ) (hN : N.SizeSquared = 1) (hF : FVector.Cross N F ≠ ⟨0, 0, 0⟩) :
    RotateVector (FootDownQuat (ExactEngine m Rotator) N F) ⟨0, 1, 0⟩
      = (F.Sub (N.Scale (FVector.Dot F N))).Scale
          (Real.sqrt (F.Sub (N.Scale (FVector.Dot F N))).SizeSquared)⁻¹
    ∧ RotateVector (FootDownQuat (ExactEngine m Rotator) N F) ⟨1, 0, 0⟩
      = ((FVector.Cross N F).Scale (Real.sqrt (FVector.Cross N F).SizeSquared)⁻¹).Neg := by
  rw [FootDownQuat_axes hm, MakeFromZX_unit hm N F hN hF, Projection_SizeSquared N F hN]
  constructor
  · simp [RotateVector, FMatrix.TransformVector, FVector.Scale, FVector.Sub]
  · simp [RotateVector, FMatrix.TransformVector, FVector.Scale, FVector.Neg]

/-- Witness for C9: flat ground and a forward vector along +X that also tilts upward. -/
theorem FootDown_forward_axis_witness :
    RotateVector (FootDownQuat
        (ExactEngine ⟨Real.sin, Real.cos, fun x => (Real.sqrt x)⁻¹, Real.pi⟩
          (fun _ => ⟨0, 0, 0⟩)) ⟨0, 0, 1⟩ ⟨3, 0, 4⟩) ⟨0, 1, 0⟩
      = ((⟨3, 0, 4⟩ : FVector ℝ).Sub
            ((⟨0, 0, 1⟩ : FVector ℝ).Scale (FVector.Dot ⟨3, 0, 4⟩ ⟨0, 0, 1⟩))).Scale
          (Real.sqrt ((⟨3, 0, 4⟩ : FVector ℝ).Sub
            ((⟨0, 0, 1⟩ : FVector ℝ).Scale (FVector.Dot ⟨3, 0, 4⟩ ⟨0, 0, 1⟩))).SizeSquared)⁻¹
    ∧ RotateVector (FootDownQuat
        (ExactEngine ⟨Real.sin, Real.cos, fun x => (Real.sqrt x)⁻¹, Real.pi⟩
          (fun _ => ⟨0, 0, 0⟩)) ⟨0, 0, 1⟩ ⟨3, 0, 4⟩) ⟨1, 0, 0⟩
      = ((FVector.Cross (⟨0, 0, 1⟩ : FVector ℝ) ⟨3, 0, 4⟩).Scale
          (Real.sqrt (FVector.Cross (⟨0, 0, 1⟩ : FVector ℝ) ⟨3, 0, 4⟩).SizeSquared)⁻¹).Neg :=
  FootDown_forward_axis _ ⟨fun _ => rfl, fun _ => rfl, fun _ => rfl, rfl⟩ _ _ _
    (by simp [FVector.SizeSquared]) (by simp [FVector.Cross])

/-- C5: in the exact model, on horizontal ground `N = (0, 0, 1)` and for every
foot-forward vector with a non-zero horizontal part, the rotation handed to the decal
spawn is the conversion of `floorRot * offsetRot`, and that composition is the rotation of
`FRotator(0, heading - 90, 0)`, where `heading` is the angle `atan2(F.Y, F.X)` in
degrees: a pure yaw with zero pitch and zero roll. -/
theorem FootDown_flat_ground (m : FMath ℝ) (hm : m.Exact) (Rotator : FMatrix ℝ → FRotator ℝ)
    (F : FVector ℝ) (hF : F.X ≠ 0 ∨ F.Y ≠ 0) :
    let E := ExactEngine m Rotator
    let heading := Complex.arg ⟨F.X, F.Y⟩ * (180 / Real.pi)
    FootDownRotation E ⟨0, 0, 1⟩ F
        = E.Rotator (E.QuatMul (E.ToQuat (E.MakeFromZX ⟨0, 0, 1⟩ F)) (E.FQuat ⟨0, -90, 0⟩))
    ∧ E.QuatMul (E.ToQuat (E.MakeFromZX ⟨0, 0, 1⟩ F)) (E.FQuat ⟨0, -90, 0⟩)
        = E.FQuat ⟨0, heading - 90, 0⟩
    ∧ FootDownRotation E ⟨0, 0, 1⟩ F = E.Rotator (E.FQuat ⟨0, heading - 90, 0⟩) := by
  intro E heading
  have hz : (⟨F.X, F.Y⟩ : ℂ) ≠ 0 := by
    intro h
    have h1 := congrArg Complex.re h
    have h2 := congrArg Complex.im h
    simp at h1 h2
    rcases hF with hF | hF
    · exact hF h1
    · exact hF h2
  have hcross : FVector.Cross (⟨0, 0, 1⟩ : FVector ℝ) F = ⟨-F.Y, F.X, 0⟩ := by
    simp [FVector.Cross]
  have hcne : FVector.Cross (⟨0, 0, 1⟩ : FVector ℝ) F ≠ ⟨0, 0, 0⟩ := by
    rw [hcross]
    intro h
    injection h with h1 h2 _
    rcases hF with hF | hF
    · exact hF h2
    · exact hF (neg_eq_zero.mp h1)
  have habs : Complex.abs ⟨F.X, F.Y⟩ = Real.sqrt (FVector.SizeSquared ⟨-F.Y, F.X, 0⟩) := by
    rw [Complex.abs_apply, Complex.normSq_mk]
    congr 1
    simp [FVector.SizeSquared]
    ring
  have hang : (heading - 90) * (Real.pi / 180) = Complex.arg ⟨F.X, F.Y⟩ - Real.pi / 2 := by
    simp only [heading]
    field_simp
    ring
  have key : E.QuatMul (E.ToQuat (E.MakeFromZX ⟨0, 0, 1⟩ F)) (E.FQuat ⟨0, -90, 0⟩)
        = E.FQuat ⟨0, heading - 90, 0⟩ := by
    have h1 : E.QuatMul (E.ToQuat (E.MakeFromZX ⟨0, 0, 1⟩ F)) (E.FQuat ⟨0, -90, 0⟩)
        = FootDownQuat E ⟨0, 0, 1⟩ F := rfl
    have h2 : E.FQuat ⟨0, heading - 90, 0⟩ = FMatrix.FRotationMatrix m ⟨0, heading - 90, 0⟩ := rfl
    rw [h1, h2, FootDownQuat_axes hm,
      MakeFromZX_unit hm _ F (by simp [FVector.SizeSquared]) hcne, FRotationMatrix_yaw hm, hang,
      Real.cos_sub, Real.sin_sub, Real.cos_pi_div_two, Real.sin_pi_div_two,
      Complex.cos_arg hz, Complex.sin_arg, habs, hcross]
    simp [FVector.Scale, FVector.Neg, FVector.Sub, FVector.Dot, div_eq_mul_inv]
  exact ⟨rfl, key, by rw [← key]; rfl⟩

/-- Witness for C5: a forward vector heading along +Y and tilted upward. -/
theorem FootDown_flat_ground_witness :
    FootDownRotation
        (ExactEngine ⟨Real.sin, Real.cos, fun x => (Real.sqrt x)⁻¹, Real.pi⟩
          (fun Q => ⟨Q.XAxis.Z, Q.XAxis.Y, Q.YAxis.Z⟩)) ⟨0, 0, 1⟩ ⟨0, 2, 1⟩
      = (ExactEngine ⟨Real.sin, Real.cos, fun x => (Real.sqrt x)⁻¹, Real.pi⟩
          (fun Q => ⟨Q.XAxis.Z, Q.XAxis.Y, Q.YAxis.Z⟩)).Rotator
        ((ExactEngine ⟨Real.sin, Real.cos, fun x => (Real.sqrt x)⁻¹, Real.pi⟩
          (fun Q => ⟨Q.XAxis.Z, Q.XAxis.Y, Q.YAxis.Z⟩)).FQuat
            ⟨0, Complex.arg ⟨0, 2⟩ * (180 / Real.pi) - 90, 0⟩) :=
  (FootDown_flat_ground _ ⟨fun _ => rfl, fun _ => rfl, fun _ => rfl, rfl⟩
    (fun Q => ⟨Q.XAxis.Z, Q.XAxis.Y, Q.YAxis.Z⟩) ⟨0, 2, 1⟩ (Or.inr (by norm_num))).2.2

/-- Witness for C10: a control rotation with pitch and roll. -/
theorem Move_directions_witness :
    ForwardDirection
        (ExactEngine ⟨Real.sin, Real.cos, fun x => (Real.sqrt x)⁻¹, Real.pi⟩
          (fun _ => ⟨0, 0, 0⟩)) ⟨10, 90, 5⟩
      = ⟨Real.cos (90 * (Real.pi / 180)), Real.sin (90 * (Real.pi / 180)), 0⟩ :=
  (Move_directions _ ⟨fun _ => rfl, fun _ => rfl, fun _ => rfl, rfl⟩ (fun _ => ⟨0, 0, 0⟩)
    ⟨10, 90, 5⟩).1

end Footprints
